import Mathlib

/-!
Shallow embedding of the go-doudou generation core as shown in the repository
sources: the generated `UserDaoImpl` persistence operations (the expected
output fixed by the test in `codegen`) and the HTTP client generator
(`GenGoClient` and its template) from `svc/internal/codegen/httpclient.go`.

Machine integers (`int`, `int64`) are modelled as `Int`; none of the claims
depends on overflow.  Go's `float64` arithmetic in `PageMany`
(`math.Ceil(float64(total) / float64(pageSize))`) is modelled as exact
integer ceiling division, which agrees with the float computation for all
page sizes `> 0` and totals within the exactly-representable range.
Fallible Go calls `(T, error)` are modelled as `Except String T` or as
`T × Option String` when the Go code returns both components directly.
External collaborators (the sqlx-style store handle, the SQL-block template
renderer, the resty transport) are modelled as records of oracles describing
the outcome of each call the generated code makes.
-/

namespace GoDoudou

/-- Go `strings.Join`: concatenates the list elements with the separator
between consecutive elements. -/
def goJoin (sep : String) : List String → String
  | [] => ""
  | [a] => a
  | a :: b :: rest => a ++ sep ++ goJoin sep (b :: rest)

/-- Go `strings.HasPrefix`, on the character sequence of the strings. -/
def goHasPref (s pre : String) : Bool := pre.toList.isPrefixOf s.toList

/-- Infix search on character lists (helper for `strContains`). -/
def listInfix (sub : List Char) : List Char → Bool
  | [] => sub.isEmpty
  | a :: rest => sub.isPrefixOf (a :: rest) || listInfix sub rest

/-- Go `strings.Contains`: substring test. -/
def strContains (s sub : String) : Bool := listInfix sub.toList s.toList

/-- Go `strings.TrimPrefix`: drops the second string from the front of the
first when it is a prefix, and returns the first unchanged otherwise. -/
def goTrimPref (s pre : String) : String :=
  if goHasPref s pre then s.drop pre.length else s

/-- Package `github.com/pkg/errors` `errors.Wrap`: the wrapping message is prepended,
colon-separated, to the cause's message. -/
def wrapErr (cause msg : String) : String := msg ++ ": " ++ cause

/-- Exact integer ceiling division `⌈a / b⌉` for `0 < b`, the model of
`math.Ceil(float64(a) / float64(b))` in `PageMany`. -/
def ceilDiv (a b : Int) : Int := -((-a) / b)

/-- Modelled from the spec: the test fixture entity `domain.User` (its
declaration under `testdata/domain` is not part of the shown sources); only
its primary-key field `ID`, the one back-populated by Insert/Upsert, is
relevant to the claims. -/
structure User where
  ID : Int
deriving Repr, DecidableEq

/-- A Go `interface{}`-typed argument as handed to the DAO operations:
a `*domain.User`, a `domain.User` value, or a value of any other type. -/
inductive GoValue where
  | userPtr (u : User)
  | userVal (u : User)
  | other
deriving Repr, DecidableEq

/-- Holds exactly on arguments of the expected concrete pointer type
`*domain.User`. -/
def GoValue.isUserPtr : GoValue → Bool
  | .userPtr _ => true
  | _ => false

/-- A `query.Q` predicate fragment; `sql` is the text its `Sql()` method
renders (fragments carry their own boolean connectors). -/
structure Q where
  sql : String
deriving Repr, DecidableEq

/-- A `query.Page`; `pageNo` and `pageSize` are its pagination numbers and
`sqlClause` the bounded/offset clause its `Sql()` method renders. -/
structure Page where
  pageNo : Int
  pageSize : Int
  sqlClause : String
deriving Repr, DecidableEq

/-- The `query.PageRet` as populated by `PageMany`. -/
structure PageRet where
  items : List User
  pageNo : Int
  pageSize : Int
  total : Int
  hasNext : Bool
deriving Repr, DecidableEq

/-- Modelled from the spec: `query.NewPageRet` (not under the shown sources)
creates a fresh page result carrying the requested page's number and size. -/
def NewPageRet (page : Page) : PageRet :=
  { items := [], pageNo := page.pageNo, pageSize := page.pageSize,
    total := 0, hasNext := false }

/-- A `database/sql` `Result` as observed by the DAO code: the outcomes of
its two accessors.  `rowsAffectedRes` is returned by the operations
directly, hence kept as the Go pair. -/
structure SqlResult where
  lastInsertIdRes : Except String Int
  rowsAffectedRes : Int × Option String

/-- The injected `wrapper.Querier` store handle, modelled as the outcome of
each call the generated DAO makes, keyed by the executed statement text. -/
structure Querier where
  namedExecContext : String → GoValue → Except String SqlResult
  execContext : String → Except String SqlResult
  selectUsersContext : String → Except String (List User)
  getIntContext : String → Except String Int

/-- The `data` argument handed to `templateutils.BlockMysql`. -/
inductive BlockData where
  | val (v : GoValue)
  | userWhere (u : User) (w : String)
  | nothing
deriving Repr, DecidableEq

/-- The renderer `templateutils.BlockMysql` over the fixed `userdao.sql` template set,
modelled as the outcome of rendering each named block (the SQL template
renderer is an external collaborator of the generated code). -/
structure Env where
  blockMysql : String → BlockData → Except String String

/-- Operation `UserDaoImpl.Insert`: renders the `InsertUser` block, executes it with
the opaque `data`, and when a generated key `> 0` is reported, writes it
into the caller's entity when and only when `data` is a `*domain.User`.
Returns the Go pair from `result.RowsAffected()` plus the (possibly
updated) entity argument. -/
def Insert (env : Env) (db : Querier) (data : GoValue) :
    (Int × Option String) × GoValue :=
  match env.blockMysql "InsertUser" BlockData.nothing with
  | .error e => ((0, some e), data)
  | .ok statement =>
    match db.namedExecContext statement data with
    | .error e => ((0, some (wrapErr e "error returned from calling db.Exec")), data)
    | .ok result =>
      match result.lastInsertIdRes with
      | .error e =>
        ((0, some (wrapErr e "error returned from calling result.LastInsertId")), data)
      | .ok lastInsertID =>
        let data :=
          if 0 < lastInsertID then
            match data with
            | .userPtr u => GoValue.userPtr { u with ID := lastInsertID }
            | v => v
          else data
        (result.rowsAffectedRes, data)

/-- Operation `UserDaoImpl.Upsert`: identical control flow to `Insert` over the
`UpsertUser` block. -/
def Upsert (env : Env) (db : Querier) (data : GoValue) :
    (Int × Option String) × GoValue :=
  match env.blockMysql "UpsertUser" BlockData.nothing with
  | .error e => ((0, some e), data)
  | .ok statement =>
    match db.namedExecContext statement data with
    | .error e => ((0, some (wrapErr e "error returned from calling db.Exec")), data)
    | .ok result =>
      match result.lastInsertIdRes with
      | .error e =>
        ((0, some (wrapErr e "error returned from calling result.LastInsertId")), data)
      | .ok lastInsertID =>
        let data :=
          if 0 < lastInsertID then
            match data with
            | .userPtr u => GoValue.userPtr { u with ID := lastInsertID }
            | v => v
          else data
        (result.rowsAffectedRes, data)

/-- Modelled from the spec: `reflectutils.ValueOf(data).Interface()` (not
under the shown sources) resolves a pointer argument to its underlying
value, so that the subsequent type assertion `value.(domain.User)` sees
the concrete entity. -/
def reflectValueOf : GoValue → GoValue
  | .userPtr u => GoValue.userVal u
  | v => v

/-- Operation `UserDaoImpl.UpdateMany`: type-checks the opaque `data` (degrading to
the typed validation error on mismatch), renders the `UpdateUsers` block
over the entity plus the predicate text, and executes it.  The second
component records the statements handed to the store. -/
def UpdateMany (env : Env) (db : Querier) (data : GoValue) (w : Q) :
    (Int × Option String) × List String :=
  match reflectValueOf data with
  | .userVal user =>
    match env.blockMysql "UpdateUsers" (BlockData.userWhere user w.sql) with
    | .error e => ((0, some e), [])
    | .ok statement =>
      match db.execContext statement with
      | .error e =>
        ((0, some (wrapErr e "error returned from calling db.Exec")), [statement])
      | .ok result => (result.rowsAffectedRes, [statement])
  | _ => ((0, some "incorrect type of parameter data"), [])

/-- Operation `UserDaoImpl.UpdateManyNoneZero`: identical control flow to
`UpdateMany` over the `UpdateUsersNoneZero` block. -/
def UpdateManyNoneZero (env : Env) (db : Querier) (data : GoValue) (w : Q) :
    (Int × Option String) × List String :=
  match reflectValueOf data with
  | .userVal user =>
    match env.blockMysql "UpdateUsersNoneZero" (BlockData.userWhere user w.sql) with
    | .error e => ((0, some e), [])
    | .ok statement =>
      match db.execContext statement with
      | .error e =>
        ((0, some (wrapErr e "error returned from calling db.Exec")), [statement])
      | .ok result => (result.rowsAffectedRes, [statement])
  | _ => ((0, some "incorrect type of parameter data"), [])

/-- The statement text `DeleteMany` formats:
`fmt.Sprintf("delete from user where %s;", where.Sql())`. -/
def deleteManyStatement (w : Q) : String :=
  "delete from user where " ++ w.sql ++ ";"

/-- Operation `UserDaoImpl.DeleteMany`: takes exactly one predicate (the Go parameter
is not variadic) and unconditionally executes the formatted delete
statement.  The second component records the statements handed to the
store. -/
def DeleteMany (db : Querier) (w : Q) : (Int × Option String) × List String :=
  match db.execContext (deleteManyStatement w) with
  | .error e =>
    ((0, some (wrapErr e "error returned from calling db.ExecContext")), [deleteManyStatement w])
  | .ok result => (result.rowsAffectedRes, [deleteManyStatement w])

/-- The `where`-clause pieces appended by the predicate-scoped reads: the
keyword `where` followed by each fragment's text when at least one fragment
was supplied, and nothing at all otherwise. -/
def whereParts (ws : List Q) : List String :=
  if 0 < ws.length then "where" :: ws.map Q.sql else []

/-- The statement pieces `SelectMany` accumulates. -/
def selectManyParts (ws : List Q) : List String :=
  "select * from user" :: whereParts ws

/-- The statement pieces `CountMany` (and `PageMany`'s count read)
accumulates. -/
def countManyParts (ws : List Q) : List String :=
  "select count(1) from user" :: whereParts ws

/-- The statement pieces of `PageMany`'s bounded select: the `SelectMany`
pieces followed by `page.Sql()`. -/
def pageSelectParts (page : Page) (ws : List Q) : List String :=
  selectManyParts ws ++ [page.sqlClause]

/-- The statement `SelectMany` executes (`strings.Join(statements, " ")`). -/
def selectManyStatement (ws : List Q) : String := goJoin " " (selectManyParts ws)

/-- The statement `CountMany` executes. -/
def countManyStatement (ws : List Q) : String := goJoin " " (countManyParts ws)

/-- The bounded select statement `PageMany` executes. -/
def pageSelectStatement (page : Page) (ws : List Q) : String :=
  goJoin " " (pageSelectParts page ws)

/-- Operation `UserDaoImpl.SelectMany`. -/
def SelectMany (db : Querier) (ws : List Q) : Except String (List User) :=
  match db.selectUsersContext (selectManyStatement ws) with
  | .error e => .error (wrapErr e "error returned from calling db.SelectContext")
  | .ok users => .ok users

/-- Operation `UserDaoImpl.CountMany`. -/
def CountMany (db : Querier) (ws : List Q) : Except String Int :=
  match db.getIntContext (countManyStatement ws) with
  | .error e => .error (wrapErr e "error returned from calling db.GetContext")
  | .ok total => .ok total

/-- The `hasNext` computation of `PageMany`:
`math.Ceil(float64(total)/float64(pageSize)) > float64(pageNo)`, with the
float ceiling of the division modelled as exact integer ceiling division. -/
def hasNextFlag (total pageSize pageNo : Int) : Bool :=
  decide (pageNo < ceilDiv total pageSize)

/-- Operation `UserDaoImpl.PageMany`: the bounded/offset select, the count read over
the same predicate, and the page result with the `hasNext` flag. -/
def PageMany (db : Querier) (page : Page) (ws : List Q) : Except String PageRet :=
  match db.selectUsersContext (pageSelectStatement page ws) with
  | .error e => .error (wrapErr e "error returned from calling db.SelectContext")
  | .ok users =>
    match db.getIntContext (countManyStatement ws) with
    | .error e => .error (wrapErr e "error returned from calling db.GetContext")
    | .ok total =>
      let pageRet := NewPageRet page
      let pageRet := { pageRet with items := users, total := total }
      if hasNextFlag total pageRet.pageSize pageRet.pageNo then
        .ok { pageRet with hasNext := true }
      else
        .ok pageRet

/-- Lower-casing of a string, modelling Go `strings.ToLower`. -/
def toLowerStr (s : String) : String := String.mk (s.toList.map Char.toLower)

/-- Upper-casing of a string, modelling Go `strings.ToUpper`. -/
def toUpperStr (s : String) : String := String.mk (s.toList.map Char.toUpper)

/-- Go `strings.Title` on a single word: upper-cases the first character. -/
def titleStr (s : String) : String :=
  match s.toList with
  | [] => ""
  | c :: rest => String.mk (c.toUpper :: rest)

/-- A parameter or result descriptor of a service method
(`astutils.FieldMeta`): its name and its type text. -/
structure FieldMeta where
  name : String
  type : String
deriving Repr, DecidableEq

/-- A service method descriptor (`astutils.MethodMeta`). -/
structure MethodMeta where
  name : String
  params : List FieldMeta
  results : List FieldMeta
deriving Repr, DecidableEq

/-- A service interface descriptor (`astutils.InterfaceMeta`). -/
structure InterfaceMeta where
  name : String
  methods : List MethodMeta
deriving Repr, DecidableEq

/-- Modelled from the spec: `httpMethod` (its definition is not under the
shown sources; only its call sites in the template and `restyMethod` are)
maps a method-name prefix to an HTTP verb by convention —
Get/List/Page/Count to GET, Create/Insert to POST, Update to PUT, Delete
to DELETE, anything else to the POST default. -/
def httpMethod (name : String) : String :=
  if goHasPref name "Get" || goHasPref name "List" ||
     goHasPref name "Page" || goHasPref name "Count" then "GET"
  else if goHasPref name "Create" || goHasPref name "Insert" then "POST"
  else if goHasPref name "Update" then "PUT"
  else if goHasPref name "Delete" then "DELETE"
  else "POST"

/-- Helper `restyMethod` from `httpclient.go`:
`strings.Title(strings.ToLower(httpMethod(method)))`. -/
def restyMethod (method : String) : String := titleStr (toLowerStr (httpMethod method))

/-- Modelled from the spec: `v3.IsBuiltin` (not under the shown sources)
classifies a field as language-primitive or collection-of-primitive. -/
def builtinBase : List String :=
  ["bool", "string", "int", "int8", "int16", "int32", "int64",
   "uint", "uint8", "uint16", "uint32", "uint64", "float32", "float64"]

/-- Modelled from the spec: the builtin test driving query/form encoding
versus request-body serialization. -/
def isBuiltin (f : FieldMeta) : Bool :=
  builtinBase.contains f.type ||
  (goHasPref f.type "[]" && builtinBase.contains (f.type.drop 2))

/-- Modelled from the spec: `pattern` (not under the shown sources) derives
a URL path segment by splitting the method name into its camel-case words
and lower-casing them. -/
def splitCamel (s : String) : List String :=
  let step := fun (acc : List (List Char)) (c : Char) =>
    if c.isUpper then [c] :: acc
    else
      match acc with
      | [] => [[c]]
      | w :: rest => (w ++ [c]) :: rest
  ((s.toList.foldl step []).reverse).map String.mk

/-- Modelled from the spec: the split route segment helper. -/
def patternSeg (s : String) : String := goJoin "/" ((splitCamel s).map toLowerStr)

/-- Modelled from the spec: `noSplitPattern` (not under the shown sources)
derives the path segment without word splitting. -/
def noSplitPattern (s : String) : String := toLowerStr s

/-- One emitted building block of a generated client method body, following
the template in `httpclient.go` segment by segment. -/
inductive Segment where
  | selectServerCheck
  | uploadLoop (p : String)
  | uploadSingle (p : String)
  | fileModelLoop (p : String)
  | fileModelSingle (p : String)
  | setContext (p : String)
  | setBody (p : String)
  | queryLoop (p : String)
  | querySet (p : String)
  | doNotParse
  | pathSeg (s : String)
  | sendGet
  | sendOther (verb : String)
  | transportErrCheck
  | respErrCheck
  | downloadBranch (r : String)
  | jsonDecodeBranch (rs : List (String × String))
deriving Repr, DecidableEq

/-- The template's parameter classification chain, in its priority order:
multipart file headers (collection or singular), `v3.FileModel`, the
context token, non-builtin body, builtin collection, builtin scalar. -/
def paramSegment (p : FieldMeta) : Segment :=
  if strContains p.type "*multipart.FileHeader" then
    if strContains p.type "[" then .uploadLoop p.name else .uploadSingle p.name
  else if strContains p.type "*v3.FileModel" then
    if strContains p.type "[" then .fileModelLoop p.name else .fileModelSingle p.name
  else if p.type == "context.Context" then .setContext p.name
  else if !(isBuiltin p) then .setBody p.name
  else if strContains p.type "[" then .queryLoop p.name
  else .querySet p.name

/-- The download branches the template emits: one per `*os.File` result,
in result order. -/
def downloadSegs : List FieldMeta → List Segment
  | [] => []
  | r :: rest =>
    (if r.type == "*os.File" then [Segment.downloadBranch r.name] else [])
      ++ downloadSegs rest

/-- The final value of the template's `$done` flag: set exactly when some
result is `*os.File`-typed. -/
def downloadDone (rs : List FieldMeta) : Bool :=
  rs.any (fun r => r.type == "*os.File")

/-- The full emitted body of one generated client method, following the
template's order: server selection, the parameter chain, one
`SetDoNotParseResponse` per file result, the route (per the strategy
selector), the send (GET versus the resty verb), the transport and
response-status checks, the download branches, and — only when no result
is a file download — the single JSON-decoding branch. -/
def genMethodSegments (svcName : String) (strategy : Int) (m : MethodMeta) :
    List Segment :=
  [Segment.selectServerCheck]
  ++ m.params.map paramSegment
  ++ (m.results.filter (fun r => r.type == "*os.File")).map (fun _ => Segment.doNotParse)
  ++ [Segment.pathSeg
      (if strategy = 1 then "/" ++ toLowerStr svcName ++ "/" ++ noSplitPattern m.name
       else "/" ++ patternSeg m.name)]
  ++ [if httpMethod m.name == "GET" then Segment.sendGet
      else Segment.sendOther (restyMethod m.name)]
  ++ [Segment.transportErrCheck, Segment.respErrCheck]
  ++ downloadSegs m.results
  ++ (if downloadDone m.results then []
      else [Segment.jsonDecodeBranch (m.results.map (fun r => (r.name, r.type)))])

/-- The generated client artifact as a function of its declared inputs:
the vo-package import, the client type name, the provider environment key
(the `Env` value when non-empty, else the upper-cased service name), and
one body per method. -/
structure GeneratedClient where
  voPackage : String
  clientName : String
  providerEnvKey : String
  methodBodies : List (String × List Segment)
deriving Repr, DecidableEq

/-- The pure core of `GenGoClient`: rendering the client template over one
interface plus the env value, the route-pattern strategy and the module
name read from `go.mod`. -/
def genClient (meta : InterfaceMeta) (env : String) (strategy : Int)
    (modName : String) : GeneratedClient :=
  { voPackage := modName ++ "/vo"
    clientName := meta.name
    providerEnvKey := if env ≠ "" then env else toUpperStr meta.name
    methodBodies := meta.methods.map (fun m => (m.name, genMethodSegments meta.name strategy m)) }

/-- Generator `GenGoClient`: renders the client for the first collected interface
only (`ic.Interfaces[0]`; the Go code panics on an empty collector,
modelled as `none`). -/
def GenGoClient (interfaces : List InterfaceMeta) (env : String)
    (strategy : Int) (modName : String) : Option GeneratedClient :=
  match interfaces with
  | [] => none
  | ic0 :: _ => some (genClient ic0 env strategy modName)

/-- Decidable equality for `Except` outcomes, used by the concrete
evaluations below. -/
instance {ε α : Type} [DecidableEq ε] [DecidableEq α] : DecidableEq (Except ε α)
  | .error e, .error f =>
    if h : e = f then isTrue (by rw [h]) else isFalse (by intro hc; cases hc; exact h rfl)
  | .error _, .ok _ => isFalse (by intro hc; cases hc)
  | .ok _, .error _ => isFalse (by intro hc; cases hc)
  | .ok a, .ok b =>
    if h : a = b then isTrue (by rw [h]) else isFalse (by intro hc; cases hc; exact h rfl)

/-- The runtime value of a `*multipart.FileHeader` argument: its file name
and the outcome of its `Open()` call. -/
structure FileHeaderVal where
  filename : String
  openRes : Except String Unit
deriving Repr, DecidableEq

/-- A transport-level response as the generated method observes it:
the `IsError()` verdict (non-success status), the body text, and the
`Content-Disposition` header. -/
structure HttpResp where
  isErr : Bool
  bodyText : String
  contentDisposition : String
deriving Repr, DecidableEq

/-- The JSON-decoded result object, observed through the field the
error-classified result maps to. -/
structure Decoded where
  errField : String
deriving Repr, DecidableEq

/-- The runtime environment of one generated client method call: the
server-provider outcome, the file arguments by parameter name (singular
and collection forms), the transport outcome, the file-system outcomes of
the download branch, the JSON decoder, and the configured output
directory. -/
structure ClientOracle where
  selectServer : Except String String
  fileOf : String → FileHeaderVal
  filesOf : String → List FileHeaderVal
  httpResult : Except String HttpResp
  createDirRes : Except String Unit
  createFileRes : Except String Unit
  copyRes : Except String Unit
  jsonDecode : String → Except String Decoded
  gddOutput : String

/-- The observable outcome of one generated client method call:
the value assigned to the error-classified result (`none` = nil), whether
the HTTP request was issued, whether a JSON decode was attempted, the file
path written by the download branch, whether the file result respectively
the plain results were assigned, and the multipart attachments made. -/
structure Outcome where
  errVal : Option String
  sent : Bool
  decoded : Bool
  written : Option String
  fileAssigned : Bool
  plainAssigned : Bool
  attached : List (String × String)
deriving Repr, DecidableEq

/-- Modelled from the spec: `stringutils.IsNotEmpty` (not under the shown
sources) treats a setting as present when it is non-blank. -/
def isNotEmptyStr (s : String) : Bool := decide (s.trim ≠ "")

/-- A simplified `path/filepath.Clean` over `/`-separated paths: removes
`.` components, empty components, and resolves `..` lexically, as the Go
standard-library collaborator does on Unix. -/
def filepathClean (path : String) : String :=
  if path = "" then "."
  else
    let rooted := goHasPref path "/"
    let comps := (path.splitOn "/").filter (fun c => c ≠ "" && c ≠ ".")
    let stack := comps.foldl
      (fun acc c =>
        if c = ".." then
          match acc with
          | [] => if rooted then [] else [".."]
          | x :: rest => if x = ".." then c :: x :: rest else rest
        else c :: acc) []
    let s := goJoin "/" stack.reverse
    if rooted then "/" ++ s else if s = "" then "." else s

/-- The target path of the download branch: the name taken from the
`Content-Disposition` header with the `attachment; filename=` marker
trimmed, placed under the configured output directory when one is set,
then cleaned. -/
def downloadTarget (output disp : String) : String :=
  let f0 := goTrimPref disp "attachment; filename="
  let f1 := if isNotEmptyStr output then output ++ "/" ++ f0 else f0
  filepathClean f1

/-- Holds exactly when the method declares an error-classified result, so
that the template emits the error assignments at all. -/
def hasErrResult (m : MethodMeta) : Bool :=
  m.results.any (fun r => r.type == "error")

/-- The value the template's failure blocks leave in the error-classified
result: the given message when the method has an error result, nothing
otherwise. -/
def errAssign (m : MethodMeta) (v : String) : Option String :=
  if hasErrResult m then some v else none

/-- Opening and attaching every file of one collection-typed upload
parameter, failing fast on the first `Open()` error. -/
def openAll (pname : String) : List FileHeaderVal → Except String (List (String × String))
  | [] => .ok []
  | fh :: rest =>
    match fh.openRes with
    | .error e => .error e
    | .ok _ =>
      match openAll pname rest with
      | .error e => .error e
      | .ok atts => .ok ((pname, fh.filename) :: atts)

/-- The runtime effect of the generated parameter chain, in parameter
order: multipart file headers are opened and attached (failing fast on an
open error), `v3.FileModel` values are attached without an open, and the
remaining kinds produce no attachment and cannot fail. -/
def processParams (o : ClientOracle) : List FieldMeta → Except String (List (String × String))
  | [] => .ok []
  | p :: rest =>
    if strContains p.type "*multipart.FileHeader" then
      if strContains p.type "[" then
        match openAll p.name (o.filesOf p.name) with
        | .error e => .error e
        | .ok atts =>
          match processParams o rest with
          | .error e => .error e
          | .ok more => .ok (atts ++ more)
      else
        match (o.fileOf p.name).openRes with
        | .error e => .error e
        | .ok _ =>
          match processParams o rest with
          | .error e => .error e
          | .ok more => .ok ((p.name, (o.fileOf p.name).filename) :: more)
    else if strContains p.type "*v3.FileModel" then
      match processParams o rest with
      | .error e => .error e
      | .ok more =>
        if strContains p.type "[" then
          .ok ((o.filesOf p.name).map (fun f => (p.name, f.filename)) ++ more)
        else
          .ok ((p.name, (o.fileOf p.name).filename) :: more)
    else
      processParams o rest

/-- The runtime semantics of one generated client method body, following
the template's emitted control flow: server selection, the parameter
chain, the send, the transport and response-status short-circuits, the
download branch (for the first file result) or the JSON-decoding branch
with its error-field check. -/
def runMethod (m : MethodMeta) (o : ClientOracle) : Outcome :=
  match o.selectServer with
  | .error e =>
    { errVal := errAssign m (wrapErr e ""), sent := false, decoded := false,
      written := none, fileAssigned := false, plainAssigned := false, attached := [] }
  | .ok _ =>
    match processParams o m.params with
    | .error e =>
      { errVal := errAssign m (wrapErr e ""), sent := false, decoded := false,
        written := none, fileAssigned := false, plainAssigned := false, attached := [] }
    | .ok atts =>
      match o.httpResult with
      | .error e =>
        { errVal := errAssign m (wrapErr e ""), sent := true, decoded := false,
          written := none, fileAssigned := false, plainAssigned := false, attached := atts }
      | .ok resp =>
        if resp.isErr then
          { errVal := errAssign m resp.bodyText, sent := true, decoded := false,
            written := none, fileAssigned := false, plainAssigned := false, attached := atts }
        else if downloadDone m.results then
          let file := downloadTarget o.gddOutput resp.contentDisposition
          match o.createDirRes with
          | .error e =>
            { errVal := errAssign m (wrapErr e ""), sent := true, decoded := false,
              written := none, fileAssigned := false, plainAssigned := false, attached := atts }
          | .ok _ =>
            match o.createFileRes with
            | .error e =>
              { errVal := errAssign m (wrapErr e ""), sent := true, decoded := false,
                written := none, fileAssigned := false, plainAssigned := false, attached := atts }
            | .ok _ =>
              match o.copyRes with
              | .error e =>
                { errVal := errAssign m (wrapErr e ""), sent := true, decoded := false,
                  written := none, fileAssigned := false, plainAssigned := false, attached := atts }
              | .ok _ =>
                { errVal := none, sent := true, decoded := false,
                  written := some file, fileAssigned := true, plainAssigned := false,
                  attached := atts }
        else
          match o.jsonDecode resp.bodyText with
          | .error e =>
            { errVal := errAssign m (wrapErr e ""), sent := true, decoded := true,
              written := none, fileAssigned := false, plainAssigned := false, attached := atts }
          | .ok res =>
            if hasErrResult m && isNotEmptyStr res.errField then
              { errVal := some res.errField, sent := true, decoded := true,
                written := none, fileAssigned := false, plainAssigned := false, attached := atts }
            else
              { errVal := none, sent := true, decoded := true,
                written := none, fileAssigned := false, plainAssigned := true, attached := atts }

/-! ### Helper lemmas -/

lemma ceilDiv_eq (a b : Int) (hb : 0 < b) :
    ceilDiv a b = Int.ceil ((a : ℚ) / (b : ℚ)) := by
  unfold ceilDiv
  have hbn : b = (b.toNat : ℤ) := (Int.toNat_of_nonneg hb.le).symm
  have h1 : Int.ceil ((a : ℚ) / (b : ℚ)) = -Int.floor (((-a : ℤ) : ℚ) / (b : ℚ)) := by
    rw [show (((-a : ℤ) : ℚ) / (b : ℚ)) = -((a : ℚ) / (b : ℚ)) by push_cast; ring]
    rw [Int.floor_neg]
    exact (neg_neg _).symm
  rw [h1]
  congr 1
  rw [hbn]
  rw [show (((b.toNat : ℤ) : ℚ)) = ((b.toNat : ℕ) : ℚ) by push_cast; ring]
  exact (Rat.floor_intCast_div_natCast (-a) b.toNat).symm

lemma goJoin_cons (sep a : String) (l : List String) (h : l ≠ []) :
    goJoin sep (a :: l) = a ++ sep ++ goJoin sep l := by
  cases l with
  | nil => exact absurd rfl h
  | cons b t => rfl

lemma goJoin_append_single (sep x : String) (l : List String) (h : l ≠ []) :
    goJoin sep (l ++ [x]) = goJoin sep l ++ sep ++ x := by
  induction l with
  | nil => exact absurd rfl h
  | cons a t ih =>
    cases t with
    | nil => rfl
    | cons b t2 =>
      rw [List.cons_append, goJoin_cons sep a ((b :: t2) ++ [x]) (by simp),
          goJoin_cons sep a (b :: t2) (by simp), ih (by simp)]
      simp [String.append_assoc]

lemma listPref_excl {p q l : List Char} (hp : p.isPrefixOf l = true)
    (hq : q.isPrefixOf l = true)
    (hpq : (p.isPrefixOf q || q.isPrefixOf p) = false) : False := by
  rw [Bool.or_eq_false_iff] at hpq
  rw [ List.isPrefixOf_iff_prefix] at hp hq
  rcases le_total p.length q.length with h | h
  · have hpfx := List.prefix_of_prefix_length_le hp hq h
    rw [← List.isPrefixOf_iff_prefix] at hpfx
    rw [hpfx] at hpq
    exact absurd hpq.1 (by simp)
  · have hpfx := List.prefix_of_prefix_length_le hq hp h
    rw [← List.isPrefixOf_iff_prefix] at hpfx
    rw [hpfx] at hpq
    exact absurd hpq.2 (by simp)

lemma pref_false (s p q : String) (hq : goHasPref s q = true)
    (hpq : (p.toList.isPrefixOf q.toList || q.toList.isPrefixOf p.toList) = false) :
    goHasPref s p = false := by
  cases h : goHasPref s p
  · rfl
  · exact absurd (listPref_excl h hq hpq) (fun f => f)

/-! ### Claim theorems -/

/-- C1: whenever both reads of `PageMany` succeed, the returned page result
carries `hasNext = true` if and only if `ceil(total / pageSize) > pageNumber`
over the requested page's numbers; at the exact boundary `total = 20`,
`pageSize = 10`, `pageNumber = 2` the flag is `false`, and for
`total = 25`, `pageSize = 10` it is `true` at page numbers 1 and 2 and
`false` at 3. -/
theorem pageMany_hasNext (db : Querier) (page : Page) (ws : List Q)
    (users : List User) (total : Int)
    (hsize : 0 < page.pageSize)
    (hsel : db.selectUsersContext (pageSelectStatement page ws) = .ok users)
    (hcnt : db.getIntContext (countManyStatement ws) = .ok total) :
    (PageMany db page ws = .ok
      { items := users, pageNo := page.pageNo, pageSize := page.pageSize,
        total := total, hasNext := hasNextFlag total page.pageSize page.pageNo })
    ∧ (hasNextFlag total page.pageSize page.pageNo = true ↔
        page.pageNo < Int.ceil ((total : ℚ) / (page.pageSize : ℚ)))
    ∧ hasNextFlag 20 10 2 = false
    ∧ hasNextFlag 25 10 1 = true
    ∧ hasNextFlag 25 10 2 = true
    ∧ hasNextFlag 25 10 3 = false := by
  refine ⟨?_, ?_, by decide, by decide, by decide, by decide⟩
  · unfold PageMany
    rw [hsel, hcnt]
    cases h : hasNextFlag total page.pageSize page.pageNo <;>
      simp [NewPageRet, h]
  · simp only [hasNextFlag, decide_eq_true_eq]
    rw [ceilDiv_eq total page.pageSize hsize]

/-- Witness for C1 at the exact boundary input. -/
theorem pageMany_hasNext_witness :
    PageMany
      { namedExecContext := fun _ _ => .error "", execContext := fun _ => .error "",
        selectUsersContext := fun _ => .ok [], getIntContext := fun _ => .ok 20 }
      { pageNo := 2, pageSize := 10, sqlClause := "limit 10 offset 10" } [] =
      .ok { items := [], pageNo := 2, pageSize := 10, total := 20,
            hasNext := hasNextFlag 20 10 2 }
    ∧ hasNextFlag 20 10 2 = false :=
  have h := pageMany_hasNext
    { namedExecContext := fun _ _ => .error "", execContext := fun _ => .error "",
      selectUsersContext := fun _ => .ok [], getIntContext := fun _ => .ok 20 }
    { pageNo := 2, pageSize := 10, sqlClause := "limit 10 offset 10" } [] [] 20
    (by decide) rfl rfl
  ⟨h.1, h.2.2.1⟩

/-- C2: with zero predicate fragments the statements built by `SelectMany`,
`CountMany` and both reads of `PageMany` contain no `where` keyword at all;
with at least one fragment they contain exactly one `where` keyword
followed by the fragments' texts joined by single spaces in caller order.
(The page clause itself, an external limit/offset rendering, is assumed not
to be the bare keyword.) -/
theorem predicate_where_composition (ws : List Q) (page : Page) :
    (selectManyStatement [] = "select * from user"
     ∧ countManyStatement [] = "select count(1) from user"
     ∧ "where" ∉ selectManyParts []
     ∧ "where" ∉ countManyParts []
     ∧ (page.sqlClause ≠ "where" → "where" ∉ pageSelectParts page []))
    ∧ (ws ≠ [] →
        (selectManyStatement ws =
          "select * from user where " ++ goJoin " " (ws.map Q.sql)
         ∧ countManyStatement ws =
          "select count(1) from user where " ++ goJoin " " (ws.map Q.sql)
         ∧ pageSelectStatement page ws =
          "select * from user where " ++ goJoin " " (ws.map Q.sql) ++ " " ++ page.sqlClause)
        ∧ ((∀ w ∈ ws, w.sql ≠ "where") →
            (selectManyParts ws).count "where" = 1
            ∧ (countManyParts ws).count "where" = 1
            ∧ (page.sqlClause ≠ "where" →
                (pageSelectParts page ws).count "where" = 1))) := by
  constructor
  · refine ⟨rfl, rfl, by decide, by decide, ?_⟩
    intro hpg
    simp [pageSelectParts, selectManyParts, whereParts, hpg.symm]
  · intro hne
    obtain ⟨q, qs, rfl⟩ : ∃ q qs, ws = q :: qs := by
      cases ws with
      | nil => exact absurd rfl hne
      | cons q qs => exact ⟨q, qs, rfl⟩
    have hwp : whereParts (q :: qs) = "where" :: (q :: qs).map Q.sql := by
      simp [whereParts]
    constructor
    · have hsel : selectManyStatement (q :: qs) =
          "select * from user where " ++ goJoin " " ((q :: qs).map Q.sql) := by
        unfold selectManyStatement selectManyParts
        rw [hwp, goJoin_cons " " "select * from user" _ (by simp),
            goJoin_cons " " "where" _ (by simp)]
        simp [← String.append_assoc]
      have hcount : countManyStatement (q :: qs) =
          "select count(1) from user where " ++ goJoin " " ((q :: qs).map Q.sql) := by
        unfold countManyStatement countManyParts
        rw [hwp, goJoin_cons " " "select count(1) from user" _ (by simp),
            goJoin_cons " " "where" _ (by simp)]
        simp [← String.append_assoc]
      refine ⟨hsel, hcount, ?_⟩
      unfold pageSelectStatement pageSelectParts
      rw [goJoin_append_single " " page.sqlClause _ (by simp [selectManyParts]),
          show goJoin " " (selectManyParts (q :: qs)) = selectManyStatement (q :: qs) from rfl,
          hsel]
    · intro hfr
      have hq : q.sql ≠ "where" := hfr q (by simp)
      have h0 : (qs.map Q.sql).count "where" = 0 := by
        rw [List.count_eq_zero]
        intro hc
        obtain ⟨w, hw, hws⟩ := List.mem_map.mp hc
        exact absurd hws (hfr w (by simp [hw]))
      refine ⟨?_, ?_, ?_⟩
      · simp [selectManyParts, hwp, List.count_cons, h0, hq]
      · simp [countManyParts, hwp, List.count_cons, h0, hq]
      · intro hpg
        simp [pageSelectParts, selectManyParts, hwp, List.count_cons, h0, hq,
          List.count_append, hpg.symm]

/-- Witness for C2 with two fragments. -/
theorem predicate_where_composition_witness :
    selectManyStatement [Q.mk "a = 1", Q.mk "and b = 2"] =
      "select * from user where " ++ goJoin " " ([Q.mk "a = 1", Q.mk "and b = 2"].map Q.sql)
    ∧ (selectManyParts [Q.mk "a = 1", Q.mk "and b = 2"]).count "where" = 1 :=
  have h := predicate_where_composition [Q.mk "a = 1", Q.mk "and b = 2"]
    (Page.mk 1 10 "limit 10 offset 0")
  have h2 := h.2 (by decide)
  ⟨h2.1.1, (h2.2 (by decide)).1⟩

/-- C10: `DeleteMany` takes exactly one predicate (its Go parameter is not
variadic, so a zero-predicate call is impossible) and unconditionally
executes exactly `delete from user where <predicate>;` — the `where`
keyword is always present, unlike the variadic reads. -/
theorem deleteMany_always_where (db : Querier) (w : Q) :
    (DeleteMany db w).2 = ["delete from user where " ++ w.sql ++ ";"]
    ∧ deleteManyStatement w = "delete from user where " ++ w.sql ++ ";" := by
  constructor
  · unfold DeleteMany
    cases db.execContext (deleteManyStatement w) <;> rfl
  · rfl

/-- C3: `httpMethod` is a total, deterministic function into
{GET, POST, PUT, DELETE}: Get/List/Page/Count-prefixed names map to GET,
Create/Insert to POST, Update to PUT, Delete to DELETE, and every name
matching none of those prefixes maps to the POST default. -/
theorem httpMethod_total_deterministic (n : String) :
    (httpMethod n = "GET" ∨ httpMethod n = "POST" ∨
     httpMethod n = "PUT" ∨ httpMethod n = "DELETE")
    ∧ ((goHasPref n "Get" = true ∨ goHasPref n "List" = true ∨
        goHasPref n "Page" = true ∨ goHasPref n "Count" = true) →
        httpMethod n = "GET")
    ∧ ((goHasPref n "Create" = true ∨ goHasPref n "Insert" = true) →
        httpMethod n = "POST")
    ∧ (goHasPref n "Update" = true → httpMethod n = "PUT")
    ∧ (goHasPref n "Delete" = true → httpMethod n = "DELETE")
    ∧ ((goHasPref n "Get" = false ∧ goHasPref n "List" = false ∧
        goHasPref n "Page" = false ∧ goHasPref n "Count" = false ∧
        goHasPref n "Create" = false ∧ goHasPref n "Insert" = false ∧
        goHasPref n "Update" = false ∧ goHasPref n "Delete" = false) →
        httpMethod n = "POST") := by
  refine ⟨?_, ?_, ?_, ?_, ?_, ?_⟩
  · unfold httpMethod
    split_ifs <;> simp
  · intro h
    rcases h with h | h | h | h <;> simp [httpMethod, h]
  · intro h
    rcases h with h | h <;>
      simp [httpMethod, h,
        pref_false n "Get" _ h (by decide), pref_false n "List" _ h (by decide),
        pref_false n "Page" _ h (by decide), pref_false n "Count" _ h (by decide)]
  · intro h
    simp [httpMethod, h,
      pref_false n "Get" _ h (by decide), pref_false n "List" _ h (by decide),
      pref_false n "Page" _ h (by decide), pref_false n "Count" _ h (by decide),
      pref_false n "Create" _ h (by decide), pref_false n "Insert" _ h (by decide)]
  · intro h
    simp [httpMethod, h,
      pref_false n "Get" _ h (by decide), pref_false n "List" _ h (by decide),
      pref_false n "Page" _ h (by decide), pref_false n "Count" _ h (by decide),
      pref_false n "Create" _ h (by decide), pref_false n "Insert" _ h (by decide),
      pref_false n "Update" _ h (by decide)]
  · intro h
    obtain ⟨h1, h2, h3, h4, h5, h6, h7, h8⟩ := h
    simp [httpMethod, h1, h2, h3, h4, h5, h6, h7, h8]

/-- Witness for C3 at an unmatched prefix. -/
theorem httpMethod_total_deterministic_witness : httpMethod "FetchFoo" = "POST" :=
  (httpMethod_total_deterministic "FetchFoo").2.2.2.2.2 (by decide)

/-- C7: when the driver reports a generated key `lid > 0`, `Insert` and
`Upsert` write it into the caller's entity exactly when the opaque `data`
is a `*domain.User` — otherwise the write is silently skipped, the
argument left untouched — and in both cases the operation still returns
the `RowsAffected` pair normally. -/
theorem insert_upsert_key_backfill (env : Env) (db : Querier) (data : GoValue) :
    (∀ stmt r lid,
      env.blockMysql "InsertUser" BlockData.nothing = .ok stmt →
      db.namedExecContext stmt data = .ok r →
      r.lastInsertIdRes = .ok lid → 0 < lid →
      ((∀ u, data = .userPtr u →
          Insert env db data = (r.rowsAffectedRes, .userPtr { u with ID := lid }))
       ∧ (data.isUserPtr = false →
          Insert env db data = (r.rowsAffectedRes, data))))
    ∧ (∀ stmt r lid,
      env.blockMysql "UpsertUser" BlockData.nothing = .ok stmt →
      db.namedExecContext stmt data = .ok r →
      r.lastInsertIdRes = .ok lid → 0 < lid →
      ((∀ u, data = .userPtr u →
          Upsert env db data = (r.rowsAffectedRes, .userPtr { u with ID := lid }))
       ∧ (data.isUserPtr = false →
          Upsert env db data = (r.rowsAffectedRes, data)))) := by
  constructor
  · intro stmt r lid hb hx hl hpos
    constructor
    · intro u hu
      subst hu
      unfold Insert
      simp [hb, hx, hl, hpos]
    · intro hptr
      unfold Insert
      cases data with
      | userPtr u => exact absurd hptr (by simp [GoValue.isUserPtr])
      | userVal u => simp [hb, hx, hl, hpos]
      | other => simp [hb, hx, hl, hpos]
  · intro stmt r lid hb hx hl hpos
    constructor
    · intro u hu
      subst hu
      unfold Upsert
      simp [hb, hx, hl, hpos]
    · intro hptr
      unfold Upsert
      cases data with
      | userPtr u => exact absurd hptr (by simp [GoValue.isUserPtr])
      | userVal u => simp [hb, hx, hl, hpos]
      | other => simp [hb, hx, hl, hpos]

/-- Witness for C7: the key is written through the pointer argument and
skipped for a mismatched argument, with the row count returned in both
cases. -/
theorem insert_upsert_key_backfill_witness :
    Insert { blockMysql := fun _ _ => .ok "ins" }
      { namedExecContext := fun _ _ => .ok { lastInsertIdRes := .ok 7, rowsAffectedRes := (1, none) },
        execContext := fun _ => .error "", selectUsersContext := fun _ => .error "",
        getIntContext := fun _ => .error "" }
      (GoValue.userPtr { ID := 0 }) = ((1, none), GoValue.userPtr { ID := 7 })
    ∧ Insert { blockMysql := fun _ _ => .ok "ins" }
      { namedExecContext := fun _ _ => .ok { lastInsertIdRes := .ok 7, rowsAffectedRes := (1, none) },
        execContext := fun _ => .error "", selectUsersContext := fun _ => .error "",
        getIntContext := fun _ => .error "" }
      GoValue.other = ((1, none), GoValue.other)
    ∧ Upsert { blockMysql := fun _ _ => .ok "ups" }
      { namedExecContext := fun _ _ => .ok { lastInsertIdRes := .ok 7, rowsAffectedRes := (2, none) },
        execContext := fun _ => .error "", selectUsersContext := fun _ => .error "",
        getIntContext := fun _ => .error "" }
      (GoValue.userPtr { ID := 3 }) = ((2, none), GoValue.userPtr { ID := 7 }) :=
  have h1 := (insert_upsert_key_backfill { blockMysql := fun _ _ => .ok "ins" }
    { namedExecContext := fun _ _ => .ok { lastInsertIdRes := .ok 7, rowsAffectedRes := (1, none) },
      execContext := fun _ => .error "", selectUsersContext := fun _ => .error "",
      getIntContext := fun _ => .error "" }
    (GoValue.userPtr { ID := 0 })).1 "ins" _ 7 rfl rfl rfl (by decide)
  have h2 := (insert_upsert_key_backfill { blockMysql := fun _ _ => .ok "ins" }
    { namedExecContext := fun _ _ => .ok { lastInsertIdRes := .ok 7, rowsAffectedRes := (1, none) },
      execContext := fun _ => .error "", selectUsersContext := fun _ => .error "",
      getIntContext := fun _ => .error "" }
    GoValue.other).1 "ins" _ 7 rfl rfl rfl (by decide)
  have h3 := (insert_upsert_key_backfill { blockMysql := fun _ _ => .ok "ups" }
    { namedExecContext := fun _ _ => .ok { lastInsertIdRes := .ok 7, rowsAffectedRes := (2, none) },
      execContext := fun _ => .error "", selectUsersContext := fun _ => .error "",
      getIntContext := fun _ => .error "" }
    (GoValue.userPtr { ID := 3 })).2 "ups" _ 7 rfl rfl rfl (by decide)
  ⟨h1.1 { ID := 0 } rfl, h2.2 rfl, h3.1 { ID := 3 } rfl⟩

/-- C8: for every argument whose underlying value is not a `domain.User`,
`UpdateMany` and `UpdateManyNoneZero` return the pair
`(0, incorrect type of parameter data)` without handing any statement to
the store. -/
theorem updateMany_wrong_type (env : Env) (db : Querier) (data : GoValue) (w : Q)
    (h : ∀ u, reflectValueOf data ≠ GoValue.userVal u) :
    UpdateMany env db data w = ((0, some "incorrect type of parameter data"), [])
    ∧ UpdateManyNoneZero env db data w =
        ((0, some "incorrect type of parameter data"), []) := by
  cases data with
  | userPtr u => exact absurd rfl (h u)
  | userVal u => exact absurd rfl (h u)
  | other => exact ⟨rfl, rfl⟩

/-- Witness for C8 on a mismatched argument. -/
theorem updateMany_wrong_type_witness :
    UpdateMany { blockMysql := fun _ _ => .ok "upd" }
      { namedExecContext := fun _ _ => .error "", execContext := fun _ => .ok { lastInsertIdRes := .ok 0, rowsAffectedRes := (1, none) },
        selectUsersContext := fun _ => .error "", getIntContext := fun _ => .error "" }
      GoValue.other (Q.mk "1 = 1") = ((0, some "incorrect type of parameter data"), []) :=
  (updateMany_wrong_type { blockMysql := fun _ _ => .ok "upd" }
    { namedExecContext := fun _ _ => .error "", execContext := fun _ => .ok { lastInsertIdRes := .ok 0, rowsAffectedRes := (1, none) },
      selectUsersContext := fun _ => .error "", getIntContext := fun _ => .error "" }
    GoValue.other (Q.mk "1 = 1")
    (fun u hc => by simp [reflectValueOf] at hc)).1

/-! ### Client-side helpers -/

/-- Recognizes the JSON-decoding branch among emitted segments. -/
def isJsonSeg : Segment → Bool
  | .jsonDecodeBranch _ => true
  | _ => false

/-- Number of JSON-decoding branches among emitted segments. -/
def jsonBranchCount (l : List Segment) : Nat := (l.filter isJsonSeg).length

lemma jsonBranchCount_append (a b : List Segment) :
    jsonBranchCount (a ++ b) = jsonBranchCount a + jsonBranchCount b := by
  simp [jsonBranchCount, List.filter_append]

lemma jsonBranchCount_eq_zero (l : List Segment)
    (h : ∀ s ∈ l, isJsonSeg s = false) : jsonBranchCount l = 0 := by
  unfold jsonBranchCount
  rw [List.length_eq_zero, List.filter_eq_nil_iff]
  intro a ha
  simp [h a ha]

lemma paramSegment_not_json (p : FieldMeta) : isJsonSeg (paramSegment p) = false := by
  unfold paramSegment
  split_ifs <;> rfl

lemma downloadSegs_not_json (rs : List FieldMeta) :
    ∀ s ∈ downloadSegs rs, isJsonSeg s = false := by
  induction rs with
  | nil => simp [downloadSegs]
  | cons r rest ih =>
    intro s hs
    unfold downloadSegs at hs
    rcases List.mem_append.mp hs with h | h
    · cases hc : r.type == "*os.File" <;> rw [hc] at h
      · simp at h
      · simp at h
        rw [h]
        rfl
    · exact ih s h

lemma openAll_ok (pname : String) (fhs : List FileHeaderVal)
    (atts : List (String × String)) (h : openAll pname fhs = .ok atts) :
    ∀ fh ∈ fhs, ∀ e, fh.openRes ≠ .error e := by
  induction fhs generalizing atts with
  | nil => simp
  | cons fh rest ih =>
    intro g hg e
    unfold openAll at h
    cases ho : fh.openRes with
    | error e2 => rw [ho] at h; cases h
    | ok _ =>
      rw [ho] at h
      cases hr : openAll pname rest with
      | error e2 => rw [hr] at h; cases h
      | ok atts2 =>
        rw [hr] at h
        rcases List.mem_cons.mp hg with hfe | hmem
        · rw [hfe, ho]; intro hc; cases hc
        · exact ih atts2 hr g hmem e

lemma openAll_error (pname : String) (fhs : List FileHeaderVal) (e : String)
    (h : openAll pname fhs = .error e) : ∃ fh ∈ fhs, fh.openRes = .error e := by
  induction fhs with
  | nil => cases h
  | cons fh rest ih =>
    unfold openAll at h
    cases ho : fh.openRes with
    | error e2 =>
      rw [ho] at h
      cases h
      exact ⟨fh, by simp, ho⟩
    | ok _ =>
      rw [ho] at h
      cases hr : openAll pname rest with
      | error e2 =>
        rw [hr] at h
        cases h
        obtain ⟨g, hg, hge⟩ := ih hr
        exact ⟨g, by simp [hg], hge⟩
      | ok atts2 => rw [hr] at h; cases h

/-- An open failure somewhere among one upload parameter's files. -/
def openFailsFor (o : ClientOracle) (p : FieldMeta) : Prop :=
  if strContains p.type "[" = true then
    ∃ fh ∈ o.filesOf p.name, ∃ e, fh.openRes = .error e
  else
    ∃ e, (o.fileOf p.name).openRes = .error e

/-- Says `e` is the open error of some multipart upload parameter among `ps`. -/
def openFailWith (o : ClientOracle) (ps : List FieldMeta) (e : String) : Prop :=
  ∃ p ∈ ps, strContains p.type "*multipart.FileHeader" = true ∧
    ((strContains p.type "[" = true ∧ ∃ fh ∈ o.filesOf p.name, fh.openRes = .error e)
     ∨ (strContains p.type "[" = false ∧ (o.fileOf p.name).openRes = .error e))

lemma processParams_ok (o : ClientOracle) (ps : List FieldMeta)
    (atts : List (String × String)) (h : processParams o ps = .ok atts) :
    ∀ p ∈ ps, strContains p.type "*multipart.FileHeader" = true → ¬ openFailsFor o p := by
  induction ps generalizing atts with
  | nil => simp
  | cons p rest ih =>
    intro q hq hfh hfail
    unfold processParams at h
    rcases List.mem_cons.mp hq with hqe | hmem
    · subst hqe
      rw [if_pos hfh] at h
      unfold openFailsFor at hfail
      cases hcol : strContains q.type "[" with
      | true =>
        rw [if_pos hcol] at h
        rw [if_pos hcol] at hfail
        obtain ⟨fh, hmemf, e, he⟩ := hfail
        cases ha : openAll q.name (o.filesOf q.name) with
        | error e2 => rw [ha] at h; cases h
        | ok atts1 => exact openAll_ok q.name _ atts1 ha fh hmemf e he
      | false =>
        rw [if_neg (by simp [hcol])] at h
        rw [if_neg (by simp [hcol])] at hfail
        obtain ⟨e, he⟩ := hfail
        rw [he] at h
        cases h
    · -- the failing parameter is further down the list
      by_cases hfh0 : strContains p.type "*multipart.FileHeader" = true
      · rw [if_pos hfh0] at h
        by_cases hcol0 : strContains p.type "[" = true
        · rw [if_pos hcol0] at h
          cases ha : openAll p.name (o.filesOf p.name) with
          | error e2 => rw [ha] at h; cases h
          | ok atts1 =>
            rw [ha] at h
            cases hr : processParams o rest with
            | error e2 => rw [hr] at h; cases h
            | ok more => exact ih more hr q hmem hfh hfail
        · rw [if_neg hcol0] at h
          cases ho : (o.fileOf p.name).openRes with
          | error e2 => rw [ho] at h; cases h
          | ok _ =>
            rw [ho] at h
            cases hr : processParams o rest with
            | error e2 => rw [hr] at h; cases h
            | ok more => exact ih more hr q hmem hfh hfail
      · rw [if_neg hfh0] at h
        by_cases hfm : strContains p.type "*v3.FileModel" = true
        · rw [if_pos hfm] at h
          cases hr : processParams o rest with
          | error e2 => rw [hr] at h; cases h
          | ok more =>
            rw [hr] at h
            exact ih more hr q hmem hfh hfail
        · rw [if_neg hfm] at h
          exact ih atts h q hmem hfh hfail

lemma processParams_error (o : ClientOracle) (ps : List FieldMeta) (e : String)
    (h : processParams o ps = .error e) : openFailWith o ps e := by
  induction ps with
  | nil => cases h
  | cons p rest ih =>
    unfold processParams at h
    by_cases hfh : strContains p.type "*multipart.FileHeader" = true
    · rw [if_pos hfh] at h
      by_cases hcol : strContains p.type "[" = true
      · rw [if_pos hcol] at h
        cases ha : openAll p.name (o.filesOf p.name) with
        | error e2 =>
          rw [ha] at h
          cases h
          obtain ⟨fh, hmemf, hfe⟩ := openAll_error p.name _ e ha
          exact ⟨p, by simp, hfh, Or.inl ⟨hcol, fh, hmemf, hfe⟩⟩
        | ok atts1 =>
          rw [ha] at h
          cases hr : processParams o rest with
          | error e2 =>
            rw [hr] at h
            cases h
            obtain ⟨q, hq, hrest⟩ := ih hr
            exact ⟨q, by simp [hq], hrest⟩
          | ok more => rw [hr] at h; cases h
      · rw [if_neg hcol] at h
        cases ho : (o.fileOf p.name).openRes with
        | error e2 =>
          rw [ho] at h
          cases h
          exact ⟨p, by simp, hfh, Or.inr ⟨by simpa using hcol, ho⟩⟩
        | ok _ =>
          rw [ho] at h
          cases hr : processParams o rest with
          | error e2 =>
            rw [hr] at h
            cases h
            obtain ⟨q, hq, hrest⟩ := ih hr
            exact ⟨q, by simp [hq], hrest⟩
          | ok more => rw [hr] at h; cases h
    · rw [if_neg hfh] at h
      by_cases hfm : strContains p.type "*v3.FileModel" = true
      · rw [if_pos hfm] at h
        cases hr : processParams o rest with
        | error e2 =>
          rw [hr] at h
          cases h
          obtain ⟨q, hq, hrest⟩ := ih hr
          exact ⟨q, by simp [hq], hrest⟩
        | ok more =>
          rw [hr] at h
          cases hcol : strContains p.type "[" <;> simp [hcol] at h
      · rw [if_neg hfm] at h
        obtain ⟨q, hq, hrest⟩ := ih h
        exact ⟨q, by simp [hq], hrest⟩

lemma genMethodSegments_json_count (svcName : String) (strategy : Int) (m : MethodMeta) :
    jsonBranchCount (genMethodSegments svcName strategy m) =
      if downloadDone m.results then 0 else 1 := by
  have h1 : jsonBranchCount [Segment.selectServerCheck] = 0 := rfl
  have h2 : jsonBranchCount (m.params.map paramSegment) = 0 :=
    jsonBranchCount_eq_zero _ (by
      intro s hs
      obtain ⟨p, hp, rfl⟩ := List.mem_map.mp hs
      exact paramSegment_not_json p)
  have h3 : jsonBranchCount
      ((m.results.filter (fun r => r.type == "*os.File")).map (fun _ => Segment.doNotParse)) = 0 :=
    jsonBranchCount_eq_zero _ (by
      intro s hs
      obtain ⟨r, hr, rfl⟩ := List.mem_map.mp hs
      rfl)
  have h4 : jsonBranchCount
      [Segment.pathSeg (if strategy = 1 then "/" ++ toLowerStr svcName ++ "/" ++ noSplitPattern m.name
        else "/" ++ patternSeg m.name)] = 0 := rfl
  have h5 : jsonBranchCount
      [if httpMethod m.name == "GET" then Segment.sendGet
       else Segment.sendOther (restyMethod m.name)] = 0 := by
    cases h : (httpMethod m.name == "GET") <;> simp [h, jsonBranchCount, isJsonSeg]
  have h6 : jsonBranchCount [Segment.transportErrCheck, Segment.respErrCheck] = 0 := rfl
  have h7 : jsonBranchCount (downloadSegs m.results) = 0 :=
    jsonBranchCount_eq_zero _ (downloadSegs_not_json m.results)
  have h8 : jsonBranchCount
      (if downloadDone m.results then []
       else [Segment.jsonDecodeBranch (m.results.map (fun r => (r.name, r.type)))]) =
      if downloadDone m.results then 0 else 1 := by
    cases h : downloadDone m.results <;> simp [h, jsonBranchCount, isJsonSeg]
  unfold genMethodSegments
  rw [jsonBranchCount_append, jsonBranchCount_append, jsonBranchCount_append,
      jsonBranchCount_append, jsonBranchCount_append, jsonBranchCount_append,
      jsonBranchCount_append]
  rw [h1, h2, h3, h4, h5, h6, h7, h8]
  cases downloadDone m.results <;> simp

/-- C4: a method with a file-download (`*os.File`) result gets no
JSON-decoding branch — at runtime the successful path writes the raw
body to the file named by the `Content-Disposition` header (under the
configured output directory when set), assigns the file result and
returns at once with every plain result untouched — while a method with
only plain-value (and error) results gets exactly one JSON-decoding
branch. -/
theorem fileDownload_no_json_branch (svcName : String) (strategy : Int) (m : MethodMeta) :
    (downloadDone m.results = true →
      jsonBranchCount (genMethodSegments svcName strategy m) = 0
      ∧ ∀ (o : ClientOracle) (s : String) (atts : List (String × String)) (resp : HttpResp),
          o.selectServer = .ok s → processParams o m.params = .ok atts →
          o.httpResult = .ok resp → resp.isErr = false →
          o.createDirRes = .ok () → o.createFileRes = .ok () → o.copyRes = .ok () →
          runMethod m o =
            { errVal := none, sent := true, decoded := false,
              written := some (downloadTarget o.gddOutput resp.contentDisposition),
              fileAssigned := true, plainAssigned := false, attached := atts })
    ∧ ((∀ r ∈ m.results, r.type ≠ "*os.File") →
        jsonBranchCount (genMethodSegments svcName strategy m) = 1)
    ∧ (∀ output disp, isNotEmptyStr output = true →
        downloadTarget output disp =
          filepathClean (output ++ "/" ++ goTrimPref disp "attachment; filename=")) := by
  refine ⟨?_, ?_, ?_⟩
  · intro hdone
    constructor
    · rw [genMethodSegments_json_count, if_pos hdone]
    · intro o s atts resp hs hp hh hrespOk hc1 hc2 hc3
      unfold runMethod
      rw [hs]
      simp [hp, hh, hrespOk, hdone, hc1, hc2, hc3]
  · intro hall
    have hfalse : downloadDone m.results = false := by
      rw [downloadDone, List.any_eq_false]
      intro r hr
      simpa using hall r hr
    rw [genMethodSegments_json_count, hfalse]
    simp
  · intro output disp h
    simp [downloadTarget, h]

/-- Witness for C4: a one-file-result method gets zero JSON branches and
its run writes the derived file; a plain-results method gets exactly one
JSON branch. -/
theorem fileDownload_no_json_branch_witness :
    jsonBranchCount (genMethodSegments "Usersvc" 2
      { name := "DownloadReport", params := [],
        results := [{ name := "rf", type := "*os.File" }, { name := "err", type := "error" }] }) = 0
    ∧ runMethod
        { name := "DownloadReport", params := [],
          results := [{ name := "rf", type := "*os.File" }, { name := "err", type := "error" }] }
        { selectServer := .ok "http://s", fileOf := fun _ => { filename := "", openRes := .ok () },
          filesOf := fun _ => [], httpResult := .ok { isErr := false, bodyText := "", contentDisposition := "attachment; filename=a.txt" },
          createDirRes := .ok (), createFileRes := .ok (), copyRes := .ok (),
          jsonDecode := fun _ => .error "", gddOutput := "out" } =
        { errVal := none, sent := true, decoded := false,
          written := some (downloadTarget "out" "attachment; filename=a.txt"),
          fileAssigned := true, plainAssigned := false, attached := [] }
    ∧ jsonBranchCount (genMethodSegments "Usersvc" 2
      { name := "GetBooks", params := [],
        results := [{ name := "data", type := "string" }, { name := "err", type := "error" }] }) = 1 :=
  have h := fileDownload_no_json_branch "Usersvc" 2
    { name := "DownloadReport", params := [],
      results := [{ name := "rf", type := "*os.File" }, { name := "err", type := "error" }] }
  have hd := h.1 (by decide)
  have h2 := fileDownload_no_json_branch "Usersvc" 2
    { name := "GetBooks", params := [],
      results := [{ name := "data", type := "string" }, { name := "err", type := "error" }] }
  ⟨hd.1,
   hd.2 { selectServer := .ok "http://s", fileOf := fun _ => { filename := "", openRes := .ok () },
          filesOf := fun _ => [], httpResult := .ok { isErr := false, bodyText := "", contentDisposition := "attachment; filename=a.txt" },
          createDirRes := .ok (), createFileRes := .ok (), copyRes := .ok (),
          jsonDecode := fun _ => .error "", gddOutput := "out" }
     "http://s" [] { isErr := false, bodyText := "", contentDisposition := "attachment; filename=a.txt" }
     rfl rfl rfl rfl rfl rfl rfl,
   h2.2.1 (by decide)⟩

/-- C5: when server selection succeeded but opening any multipart upload
file fails, the generated method assigns the wrapped open error to the
error-classified result and returns at once — the HTTP request is never
issued. -/
theorem upload_open_failure_no_request (m : MethodMeta) (o : ClientOracle) (s : String)
    (hs : o.selectServer = .ok s)
    (hfail : ∃ p ∈ m.params,
      strContains p.type "*multipart.FileHeader" = true ∧ openFailsFor o p) :
    ∃ e, openFailWith o m.params e ∧
      runMethod m o =
        { errVal := errAssign m (wrapErr e ""), sent := false, decoded := false,
          written := none, fileAssigned := false, plainAssigned := false, attached := [] } := by
  cases hp : processParams o m.params with
  | ok atts =>
    obtain ⟨p, hmem, hfh, hof⟩ := hfail
    exact absurd hof (processParams_ok o m.params atts hp p hmem hfh)
  | error e =>
    refine ⟨e, processParams_error o m.params e hp, ?_⟩
    unfold runMethod
    rw [hs]
    simp [hp]

/-- Witness for C5: a singular upload whose `Open()` fails short-circuits
before the request. -/
theorem upload_open_failure_no_request_witness :
    ∃ e, openFailWith
        { selectServer := .ok "srv", fileOf := fun _ => { filename := "a.png", openRes := .error "boom" },
          filesOf := fun _ => [], httpResult := .error "", createDirRes := .ok (),
          createFileRes := .ok (), copyRes := .ok (), jsonDecode := fun _ => .error "",
          gddOutput := "" }
        [{ name := "file", type := "*multipart.FileHeader" }] e ∧
      runMethod
        { name := "UploadAvatar", params := [{ name := "file", type := "*multipart.FileHeader" }],
          results := [{ name := "err", type := "error" }] }
        { selectServer := .ok "srv", fileOf := fun _ => { filename := "a.png", openRes := .error "boom" },
          filesOf := fun _ => [], httpResult := .error "", createDirRes := .ok (),
          createFileRes := .ok (), copyRes := .ok (), jsonDecode := fun _ => .error "",
          gddOutput := "" } =
        { errVal := errAssign { name := "UploadAvatar", params := [{ name := "file", type := "*multipart.FileHeader" }], results := [{ name := "err", type := "error" }] } (wrapErr e ""),
          sent := false, decoded := false, written := none,
          fileAssigned := false, plainAssigned := false, attached := [] } :=
  upload_open_failure_no_request
    { name := "UploadAvatar", params := [{ name := "file", type := "*multipart.FileHeader" }],
      results := [{ name := "err", type := "error" }] }
    { selectServer := .ok "srv", fileOf := fun _ => { filename := "a.png", openRes := .error "boom" },
      filesOf := fun _ => [], httpResult := .error "", createDirRes := .ok (),
      createFileRes := .ok (), copyRes := .ok (), jsonDecode := fun _ => .error "",
      gddOutput := "" }
    "srv" rfl
    ⟨{ name := "file", type := "*multipart.FileHeader" }, by simp,
      by decide,
      by unfold openFailsFor; rw [if_neg (by decide)]; exact ⟨"boom", rfl⟩⟩

/-- C6: every transport-level failure — server-selection failure, network
error, or an error-classified response status — makes the generated method
assign an error to the error-classified result and return at once,
attempting no decode of the response body. -/
theorem transport_failure_short_circuit (m : MethodMeta) (o : ClientOracle) :
    (∀ e, o.selectServer = .error e →
      runMethod m o =
        { errVal := errAssign m (wrapErr e ""), sent := false, decoded := false,
          written := none, fileAssigned := false, plainAssigned := false, attached := [] })
    ∧ (∀ s atts e, o.selectServer = .ok s → processParams o m.params = .ok atts →
        o.httpResult = .error e →
        runMethod m o =
          { errVal := errAssign m (wrapErr e ""), sent := true, decoded := false,
            written := none, fileAssigned := false, plainAssigned := false, attached := atts })
    ∧ (∀ s atts resp, o.selectServer = .ok s → processParams o m.params = .ok atts →
        o.httpResult = .ok resp → resp.isErr = true →
        runMethod m o =
          { errVal := errAssign m resp.bodyText, sent := true, decoded := false,
            written := none, fileAssigned := false, plainAssigned := false, attached := atts }) := by
  refine ⟨?_, ?_, ?_⟩
  · intro e he
    unfold runMethod
    rw [he]
  · intro s atts e hs hp hh
    unfold runMethod
    rw [hs]
    simp [hp, hh]
  · intro s atts resp hs hp hh hr
    unfold runMethod
    rw [hs]
    simp [hp, hh, hr]

/-- Witness for C6 on all three failure kinds. -/
theorem transport_failure_short_circuit_witness :
    runMethod { name := "GetBooks", params := [], results := [{ name := "err", type := "error" }] }
      { selectServer := .error "down", fileOf := fun _ => { filename := "", openRes := .ok () },
        filesOf := fun _ => [], httpResult := .error "", createDirRes := .ok (),
        createFileRes := .ok (), copyRes := .ok (), jsonDecode := fun _ => .error "",
        gddOutput := "" } =
      { errVal := errAssign { name := "GetBooks", params := [], results := [{ name := "err", type := "error" }] } (wrapErr "down" ""),
        sent := false, decoded := false, written := none,
        fileAssigned := false, plainAssigned := false, attached := [] }
    ∧ runMethod { name := "GetBooks", params := [], results := [{ name := "err", type := "error" }] }
      { selectServer := .ok "srv", fileOf := fun _ => { filename := "", openRes := .ok () },
        filesOf := fun _ => [], httpResult := .ok { isErr := true, bodyText := "bad request", contentDisposition := "" },
        createDirRes := .ok (), createFileRes := .ok (), copyRes := .ok (),
        jsonDecode := fun _ => .error "", gddOutput := "" } =
      { errVal := errAssign { name := "GetBooks", params := [], results := [{ name := "err", type := "error" }] } "bad request",
        sent := true, decoded := false, written := none,
        fileAssigned := false, plainAssigned := false, attached := [] } :=
  ⟨(transport_failure_short_circuit
      { name := "GetBooks", params := [], results := [{ name := "err", type := "error" }] }
      { selectServer := .error "down", fileOf := fun _ => { filename := "", openRes := .ok () },
        filesOf := fun _ => [], httpResult := .error "", createDirRes := .ok (),
        createFileRes := .ok (), copyRes := .ok (), jsonDecode := fun _ => .error "",
        gddOutput := "" }).1 "down" rfl,
   (transport_failure_short_circuit
      { name := "GetBooks", params := [], results := [{ name := "err", type := "error" }] }
      { selectServer := .ok "srv", fileOf := fun _ => { filename := "", openRes := .ok () },
        filesOf := fun _ => [], httpResult := .ok { isErr := true, bodyText := "bad request", contentDisposition := "" },
        createDirRes := .ok (), createFileRes := .ok (), copyRes := .ok (),
        jsonDecode := fun _ => .error "", gddOutput := "" }).2.2 "srv" []
      { isErr := true, bodyText := "bad request", contentDisposition := "" } rfl rfl rfl rfl⟩

/-- C9: client generation is deterministic — the emitted artifact is a
function of the interface metadata, the env value, the route-pattern
strategy and the module name (only the first collected interface enters),
so identical inputs give identical output. -/
theorem generation_deterministic :
    (∀ (interfaces : List InterfaceMeta) (env : String) (strategy : Int) (modName : String),
      GenGoClient interfaces env strategy modName = GenGoClient interfaces env strategy modName)
    ∧ (∀ (i1 i2 : List InterfaceMeta) (env : String) (strategy : Int) (modName : String),
        i1.head? = i2.head? →
        GenGoClient i1 env strategy modName = GenGoClient i2 env strategy modName) := by
  refine ⟨fun _ _ _ _ => rfl, ?_⟩
  intro i1 i2 env strategy modName h
  cases i1 <;> cases i2 <;> simp_all [GenGoClient]

/-- Witness for C9: two collectors agreeing on the first interface yield
the same artifact. -/
theorem generation_deterministic_witness :
    GenGoClient [{ name := "Usersvc", methods := [] }, { name := "Other", methods := [] }]
      "SVC_ENV" 1 "mymod"
      = GenGoClient [{ name := "Usersvc", methods := [] }] "SVC_ENV" 1 "mymod" :=
  generation_deterministic.2
    [{ name := "Usersvc", methods := [] }, { name := "Other", methods := [] }]
    [{ name := "Usersvc", methods := [] }] "SVC_ENV" 1 "mymod" rfl

end GoDoudou
